/-
Verification of the handler-invocation contract of connect-es
(packages/connect/src/method-implementation.ts).

The source file declares, at the type level:
  - the HandlerContext interface (per-call context: method/service metadata,
    an AbortSignal, a timeoutMs query, request method, request headers,
    mutable response headers/trailers, and the protocol name);
  - the four handler signature types UnaryImpl, ClientStreamingImpl,
    ServerStreamingImpl and BiDiStreamingImpl;
  - the conditional type MethodImpl dispatching a TypedMethodInfo on its
    MethodKind to one of the four signatures, with a `never` fallback.

We embed the TypeScript type expressions of that file as a small grammar
`Ty` (transcribed term by term from the source) together with a semantic
interpretation `Interp` into Lean types, so that statements can be made
both about the syntactic shape of each signature and about every inhabitant
of its meaning.  Messages are modelled concretely as field-name/value lists
over a schema that carries declared default values, which lets us state the
partial-message completion step.  Behaviour that the source file only
documents (the timeoutMs computation, the abort signal life cycle, the
header-freeze rule for streaming responses, the construction of contexts by
protocol handlers) lives in the server runtimes and is modelled from the
specification, as marked on each such definition.
-/
import Mathlib

namespace ConnectES

/-! ## Messages, schemas and partial-message completion -/

/-- A message schema: the declared fields, each with its declared default
value.  Field values are modelled as strings. -/
abbrev Schema := List (String × String)

/-- A message value: an assignment of values to field names.  A full
message for a schema assigns every declared field; see `completeMessage`. -/
abbrev Msg := List (String × String)

/-- A PartialMessage value: like `Msg`, but it may leave declared fields
unset; the runtime completes it with the declared defaults. -/
abbrev PMsg := List (String × String)

/-- Look up the value assigned to field `k`. -/
def lookupField (k : String) : List (String × String) → Option String
  | [] => none
  | (k2, v) :: rest => if k2 = k then some v else lookupField k rest

/-- The field names assigned by a message (or declared by a schema). -/
def fieldNames (m : List (String × String)) : List String :=
  m.map Prod.fst

/-- Modelled from the spec: the server runtime completes a partial output
message with the message type's declared defaults before serialization
(the normalization step is performed by the runtime packages, which are not
part of the file under study).  Every declared field receives the value set
in `p` when there is one, and the declared default otherwise. -/
def completeMessage (sc : Schema) (p : PMsg) : Msg :=
  sc.map (fun fd => (fd.1, ((lookupField fd.1 p).getD fd.2)))

/-- Error kinds of the contract (spec section 7). -/
inductive ErrorCode
  | invalidArgument
  | deadlineExceeded
  | canceled
  | unimplemented
  | internalError
  | unavailable
deriving DecidableEq

/-- A terminal failure surfaced to the transport layer. -/
structure RpcError where
  code : ErrorCode
  message : String
deriving DecidableEq

/-- A JavaScript promise, modelled by its settled outcome: it either
fulfills with exactly one value or rejects with an error. -/
def Promise (α : Type) : Type :=
  Except RpcError α

/-! ## The type expressions of method-implementation.ts -/

/-- Grammar of the TypeScript type expressions occurring in the signature
declarations of the source file.  `msgI` and `msgO` stand for the message
type parameters `I` and `O`; `partMessage t` is `PartialMessage<t>`;
`fn2 a b r` is a two-parameter function type `(x: a, y: b) => r`;
`never` is the TypeScript bottom type used as the dispatch fallback. -/
inductive Ty
  | msgI
  | msgO
  | partMessage (t : Ty)
  | promise (t : Ty)
  | asyncIterable (t : Ty)
  | union (a b : Ty)
  | handlerCtx
  | fn2 (a b r : Ty)
  | never
deriving DecidableEq

/-- The output value type `O | PartialMessage<O>` shared by all four
signatures. -/
def outputTy : Ty :=
  Ty.union Ty.msgO (Ty.partMessage Ty.msgO)

/-- UnaryImpl from the source:
`(request: I, context: HandlerContext) => Promise<O | PartialMessage<O>> | O | PartialMessage<O>`. -/
def UnaryImpl : Ty :=
  Ty.fn2 Ty.msgI Ty.handlerCtx (Ty.union (Ty.promise outputTy) outputTy)

/-- ClientStreamingImpl from the source:
`(requests: AsyncIterable<I>, context: HandlerContext) => Promise<O | PartialMessage<O>>`. -/
def ClientStreamingImpl : Ty :=
  Ty.fn2 (Ty.asyncIterable Ty.msgI) Ty.handlerCtx (Ty.promise outputTy)

/-- ServerStreamingImpl from the source:
`(request: I, context: HandlerContext) => AsyncIterable<O | PartialMessage<O>>`. -/
def ServerStreamingImpl : Ty :=
  Ty.fn2 Ty.msgI Ty.handlerCtx (Ty.asyncIterable outputTy)

/-- BiDiStreamingImpl from the source:
`(requests: AsyncIterable<I>, context: HandlerContext) => AsyncIterable<O | PartialMessage<O>>`. -/
def BiDiStreamingImpl : Ty :=
  Ty.fn2 (Ty.asyncIterable Ty.msgI) Ty.handlerCtx (Ty.asyncIterable outputTy)

/-! ## Method descriptors and the MethodImpl dispatch -/

/-- The four call-shape tags of `MethodKind` (imported by the source from
the protobuf runtime). -/
inductive MethodKind
  | unary
  | serverStreaming
  | clientStreaming
  | biDiStreaming
deriving DecidableEq, Fintype

/-- The numeric enum value of each call-shape tag (TypeScript enums number
their members 0, 1, 2, 3 in declaration order). -/
def MethodKind.tag : MethodKind → Nat
  | .unary => 0
  | .serverStreaming => 1
  | .clientStreaming => 2
  | .biDiStreaming => 3

/-- The optional idempotency hint of a method (`MethodIdempotency`);
absence of the hint models the "unknown" level. -/
inductive MethodIdempotency
  | noSideEffects
  | idempotent
deriving DecidableEq

/-- TypedMethodInfo from the source: a method descriptor carrying the
call-shape tag, the method name, the input and output message types and
the optional idempotency hint.  The tag is kept as a raw enum value so
that descriptors with an out-of-range tag are representable and the
dispatch fallback is observable. -/
structure TypedMethodInfo where
  kind : Nat
  name : String
  I : Schema
  O : Schema
  idempotency : Option MethodIdempotency
deriving DecidableEq

/-- MethodImpl from the source: the conditional type
`M extends TypedMethodInfo<I, O, MethodKind.Unary> ? UnaryImpl<I, O> : ... : never`,
read as a mapping from the descriptor's call-shape tag to the handler
signature, with `never` for any tag that matches none of the four. -/
def MethodImpl (m : TypedMethodInfo) : Ty :=
  if m.kind = MethodKind.unary.tag then UnaryImpl
  else if m.kind = MethodKind.serverStreaming.tag then ServerStreamingImpl
  else if m.kind = MethodKind.clientStreaming.tag then ClientStreamingImpl
  else if m.kind = MethodKind.biDiStreaming.tag then BiDiStreamingImpl
  else Ty.never

/-! ## The handler context -/

/-- Service metadata (`ServiceType`): only the identity matters here. -/
structure ServiceType where
  typeName : String
deriving DecidableEq

/-- An AbortSignal as the handler observes it: its aborted flag. -/
structure AbortSignal where
  aborted : Bool
deriving DecidableEq

/-- Header containers: insertion-order-preserving key/value lists. -/
abbrev Headers := List (String × String)

/-- HandlerContext from the source.  The source exposes `timeoutMs` as a
zero-argument closure over the call's deadline; here the closure's captured
state is the `deadline` field (absolute time in milliseconds, `none` when
the request carries no timeout) and the query is `HandlerContext.timeoutMs`
below, applied to the current clock reading. -/
structure HandlerContext where
  method : TypedMethodInfo
  service : ServiceType
  signal : AbortSignal
  deadline : Option Nat
  requestMethod : String
  requestHeader : Headers
  responseHeader : Headers
  responseTrailer : Headers
  protocolName : String

/-- Modelled from the spec: the timeoutMs query built by the server runtime
(the closure constructed with the context, not part of the file under
study).  It returns `none` when no deadline is configured and otherwise the
non-negative remaining milliseconds, recomputed from the original deadline
and the current time at every query. -/
def HandlerContext.timeoutMs (ctx : HandlerContext) (now : Nat) : Option Int :=
  match ctx.deadline with
  | none => none
  | some d => some (max ((d : Int) - (now : Int)) 0)

/-- Modelled from the spec: the fixed set of wire protocols whose handlers
construct contexts; the source documents `protocolName` as one of
"connect", "grpc" or "grpc-web". -/
inductive ProtocolName
  | connectProtocol
  | grpc
  | grpcWeb
deriving DecidableEq, Fintype

/-- The wire name each protocol writes into the context. -/
def ProtocolName.wireName : ProtocolName → String
  | .connectProtocol => "connect"
  | .grpc => "grpc"
  | .grpcWeb => "grpc-web"

/-- Modelled from the spec: construction of a context by the transport
layer for one accepted call (spec section 6): the protocol name is drawn
from the fixed protocol set, the signal starts in the active state, and
the outbound header and trailer containers start empty. -/
def mkHandlerContext (m : TypedMethodInfo) (svc : ServiceType) (p : ProtocolName)
    (requestMethod : String) (requestHeader : Headers) (deadline : Option Nat) :
    HandlerContext :=
  { method := m
    service := svc
    signal := { aborted := false }
    deadline := deadline
    requestMethod := requestMethod
    requestHeader := requestHeader
    responseHeader := []
    responseTrailer := []
    protocolName := p.wireName }

/-! ## Semantic interpretation of the type expressions -/

/-- Interpretation of the type grammar into Lean types: message types
become concrete messages, `Promise` becomes a settled outcome,
`AsyncIterable` becomes the finite sequence of items the iterable yields,
a union becomes a sum, and a function type becomes a function type. -/
def Interp : Ty → Type
  | .msgI => Msg
  | .msgO => Msg
  | .partMessage _ => PMsg
  | .promise t => Promise (Interp t)
  | .asyncIterable t => List (Interp t)
  | .union a b => Interp a ⊕ Interp b
  | .handlerCtx => HandlerContext
  | .fn2 a b r => Interp a → Interp b → Interp r
  | .never => Empty

/-- The meaning of `UnaryImpl`, written out. -/
abbrev UnaryHandler : Type :=
  Msg → HandlerContext → (Promise (Msg ⊕ PMsg) ⊕ (Msg ⊕ PMsg))

/-- The meaning of `ClientStreamingImpl`, written out. -/
abbrev ClientStreamingHandler : Type :=
  List Msg → HandlerContext → Promise (Msg ⊕ PMsg)

/-- The meaning of `ServerStreamingImpl`, written out. -/
abbrev ServerStreamingHandler : Type :=
  Msg → HandlerContext → List (Msg ⊕ PMsg)

/-- The meaning of `BiDiStreamingImpl`, written out. -/
abbrev BiDiStreamingHandler : Type :=
  List Msg → HandlerContext → List (Msg ⊕ PMsg)

/-- Modelled from the spec: the runtime's treatment of one output value of
a handler — a full message is passed through, a partial message is
completed with the declared defaults before serialization. -/
def finalize (sc : Schema) : Msg ⊕ PMsg → Msg
  | Sum.inl m => m
  | Sum.inr p => completeMessage sc p

/-- Invoke a unary handler and normalize its result: a synchronous return
value is used directly, an asynchronous one is awaited; either way the
single output value is completed against the output schema. -/
def runUnary (sc : Schema) (f : UnaryHandler) (request : Msg)
    (c : HandlerContext) : Except RpcError Msg :=
  match f request c with
  | Sum.inl pr => pr.map (finalize sc)
  | Sum.inr v => Except.ok (finalize sc v)

/-- Invoke a client-streaming handler on the full input sequence and
normalize its single awaited output. -/
def runClientStreaming (sc : Schema) (f : ClientStreamingHandler)
    (requests : List Msg) (c : HandlerContext) : Except RpcError Msg :=
  (f requests c).map (finalize sc)

/-- Invoke a server-streaming handler and normalize each yielded output. -/
def runServerStreaming (sc : Schema) (f : ServerStreamingHandler)
    (request : Msg) (c : HandlerContext) : List Msg :=
  (f request c).map (finalize sc)

/-- Invoke a bidi-streaming handler and normalize each yielded output. -/
def runBiDiStreaming (sc : Schema) (f : BiDiStreamingHandler)
    (requests : List Msg) (c : HandlerContext) : List Msg :=
  (f requests c).map (finalize sc)

/-! ## Structural analyses of type expressions -/

/-- The members of a (possibly nested) union; a non-union type is its own
single member. -/
def unionMembers : Ty → List Ty
  | .union a b => unionMembers a ++ unionMembers b
  | t => [t]

/-- Whether a type expression is a `Promise`. -/
def isPromiseTy : Ty → Bool
  | .promise _ => true
  | _ => false

/-- Strip one `Promise` layer (awaiting); other types are unchanged. -/
def awaited : Ty → Ty
  | .promise t => t
  | t => t

/-- Whether a type expression denotes a single output message value:
the output message type itself or a partial of it. -/
def isSingleMessageTy : Ty → Bool
  | .msgO => true
  | .partMessage _ => true
  | _ => false

/-- The parameter list of a function type expression. -/
def paramsOf : Ty → List Ty
  | .fn2 a b _ => [a, b]
  | _ => []

/-- The return type of a function type expression. -/
def retOf : Ty → Ty
  | .fn2 _ _ r => r
  | t => t

/-- Whether a (union) type admits a value that is not wrapped in a
`Promise`, i.e. a synchronous return alternative. -/
def admitsSyncValue (t : Ty) : Bool :=
  (unionMembers t).any (fun a => !(isPromiseTy a))

/-- The element type of an `AsyncIterable` type expression. -/
def streamElem : Ty → Option Ty
  | .asyncIterable t => some t
  | _ => none

/-! ## The cancellation signal life cycle

Modelled from the spec: the signal's wiring (client disconnect, deadline
timer, AbortController) lives in the server runtimes, not in the file under
study.  The spec: the signal transitions from active to cancelled at most
once, is triggered only by client disconnect or deadline expiry and never
by the handler itself, and deadline expiry and client cancellation share
this single signal. -/

/-- Events that can affect the cancellation signal during a call. -/
inductive CancelEvent
  | clientDisconnect
  | deadlineExpiry
  | handlerStep
deriving DecidableEq

/-- One transition of the signal's aborted flag. -/
def cancelStep : Bool → CancelEvent → Bool
  | _, .clientDisconnect => true
  | _, .deadlineExpiry => true
  | b, .handlerStep => b

/-- The signal state after a sequence of events. -/
def runCancel (b : Bool) (evs : List CancelEvent) : Bool :=
  evs.foldl cancelStep b

/-- How many times the signal fires (transitions from active to cancelled)
along a sequence of events. -/
def firingCount : Bool → List CancelEvent → Nat
  | _, [] => 0
  | b, e :: rest =>
      (if b = false ∧ cancelStep b e = true then 1 else 0) +
        firingCount (cancelStep b e) rest

/-! ## The response stream and the header freeze

Modelled from the spec: the runtime that writes a streaming response
(freezing the outbound headers before the first output message and
ignoring later mutations) is not part of the file under study; the source
documents the rule on `responseHeader`. -/

/-- Events on an open streaming response: a handler mutating the outbound
headers, the response yielding an output message, or the call failing. -/
inductive StreamEvent
  | setHeader (k v : String)
  | yieldMessage (m : Msg)
  | failCall
deriving DecidableEq

/-- The observable state of a streaming response. -/
structure StreamState where
  responseHeader : Headers
  headersFrozen : Bool
  sent : Nat
deriving DecidableEq

/-- One transition of the streaming response: yielding a message freezes
the headers (they are transmitted before any message), failing finalizes
the response and hence also freezes them, and a header mutation after the
freeze is ignored. -/
def streamStep (s : StreamState) : StreamEvent → StreamState
  | .setHeader k v =>
      if s.headersFrozen then s
      else { s with responseHeader := s.responseHeader ++ [(k, v)] }
  | .yieldMessage _ => { s with headersFrozen := true, sent := s.sent + 1 }
  | .failCall => { s with headersFrozen := true }

/-- The response state after a sequence of events. -/
def runStream (s : StreamState) (tr : List StreamEvent) : StreamState :=
  tr.foldl streamStep s

/-- The initial state of a streaming response: the context's headers are
still open for mutation and nothing has been sent. -/
def initStream : StreamState :=
  { responseHeader := [], headersFrozen := false, sent := 0 }

/-! ## Concrete sample values used by the witnesses -/

/-- A sample schema with two declared fields and their defaults. -/
def sampleSchema : Schema := [("id", "0"), ("name", "")]

/-- A sample partial message setting only the `name` field. -/
def samplePart : PMsg := [("name", "x")]

/-- A descriptor with the unary tag. -/
def descriptorUnary : TypedMethodInfo :=
  { kind := 0, name := "Say", I := sampleSchema, O := sampleSchema,
    idempotency := none }

/-- A descriptor whose tag matches none of the four call shapes. -/
def descriptorBogus : TypedMethodInfo :=
  { kind := 7, name := "Bogus", I := sampleSchema, O := sampleSchema,
    idempotency := none }

/-- A sample service descriptor. -/
def sampleService : ServiceType := { typeName := "example.ElizaService" }

/-- A sample context with a deadline at 100 ms. -/
def sampleCtx : HandlerContext :=
  mkHandlerContext descriptorUnary sampleService ProtocolName.grpc "POST" []
    (some 100)

/-- A sample unary handler returning a partial message synchronously. -/
def sampleUnaryHandler : UnaryHandler :=
  fun _ _ => Sum.inr (Sum.inr samplePart)

/-- A sample response state whose headers are already frozen. -/
def sampleFrozen : StreamState :=
  { responseHeader := [("content-type", "application/grpc")],
    headersFrozen := true, sent := 0 }

/-! ## Helper lemmas -/

/-- A settled promise either rejected with an error or fulfilled with
exactly one value. -/
theorem except_single {α : Type} (r : Except RpcError α) :
    (∃ e, r = Except.error e) ∨ (∃! m, r = Except.ok m) := by
  cases r with
  | error e => exact Or.inl ⟨e, rfl⟩
  | ok m =>
      refine Or.inr ⟨m, rfl, fun y hy => ?_⟩
      injection hy with h
      exact h.symm

/-- Completing a partial message assigns exactly the declared fields. -/
theorem fieldNames_completeMessage (sc : Schema) (p : PMsg) :
    fieldNames (completeMessage sc p) = fieldNames sc := by
  unfold fieldNames completeMessage
  rw [List.map_map]
  rfl

/-- Completing a partial message gives every declared field the value set
in the partial message when there is one, and the declared default
otherwise. -/
theorem lookupField_completeMessage (sc : Schema) (p : PMsg) (k d : String)
    (hnd : (fieldNames sc).Nodup) (hmem : (k, d) ∈ sc) :
    lookupField k (completeMessage sc p) = some ((lookupField k p).getD d) := by
  induction sc with
  | nil => cases hmem
  | cons fd rest ih =>
      obtain ⟨k2, d2⟩ := fd
      simp only [fieldNames, List.map_cons, List.nodup_cons] at hnd
      by_cases hk : k2 = k
      · subst hk
        have hd : d = d2 := by
          rcases List.mem_cons.mp hmem with h1 | h2
          · have := Prod.mk.injEq .. ▸ h1
            simp only [Prod.mk.injEq] at h1
            exact h1.2
          · exact absurd (List.mem_map_of_mem Prod.fst h2) hnd.1
        subst hd
        simp [completeMessage, lookupField]
      · have h2 : (k, d) ∈ rest := by
          rcases List.mem_cons.mp hmem with h1 | h2
          · simp only [Prod.mk.injEq] at h1
            exact absurd h1.1.symm hk
          · exact h2
        have ihr := ih (by simpa [fieldNames] using hnd.2) h2
        show lookupField k
            ((k2, (lookupField k2 p).getD d2) :: completeMessage rest p) = _
        simp only [lookupField, if_neg hk]
        exact ihr

/-- Once the signal is cancelled, any further event leaves it cancelled. -/
theorem cancelStep_true (e : CancelEvent) : cancelStep true e = true := by
  cases e <;> rfl

/-- Once the signal is cancelled, it remains cancelled for any trace. -/
theorem runCancel_true (tr : List CancelEvent) : runCancel true tr = true := by
  induction tr with
  | nil => rfl
  | cons e rest ih =>
      show runCancel (cancelStep true e) rest = true
      rw [cancelStep_true]
      exact ih

/-- A cancelled signal never fires again. -/
theorem firingCount_true (tr : List CancelEvent) : firingCount true tr = 0 := by
  induction tr with
  | nil => rfl
  | cons e rest ih =>
      show (if true = false ∧ cancelStep true e = true then 1 else 0) +
          firingCount (cancelStep true e) rest = 0
      rw [cancelStep_true]
      simpa using ih

/-- The signal fires at most once along any trace. -/
theorem firingCount_le_one (tr : List CancelEvent) (b : Bool) :
    firingCount b tr ≤ 1 := by
  induction tr generalizing b with
  | nil => simp [firingCount]
  | cons e rest ih =>
      cases b with
      | true => simp [firingCount_true]
      | false =>
          show (if false = false ∧ cancelStep false e = true then 1 else 0) +
              firingCount (cancelStep false e) rest ≤ 1
          cases hc : cancelStep false e with
          | true => simp [firingCount_true]
          | false =>
              simp only [hc, Bool.false_eq_true, and_false, if_false,
                Nat.zero_add]
              exact ih false

/-- A trace consisting only of handler activity never cancels the
signal. -/
theorem runCancel_handler_only (evs : List CancelEvent)
    (hh : ∀ e ∈ evs, e = CancelEvent.handlerStep) :
    runCancel false evs = false := by
  induction evs with
  | nil => rfl
  | cons e rest ih =>
      have he := hh e (List.mem_cons_self e rest)
      subst he
      exact ih fun e2 h2 => hh e2 (List.mem_cons_of_mem _ h2)

/-- A header mutation after the freeze is ignored. -/
theorem streamStep_frozen_setHeader (s : StreamState) (k v : String)
    (h : s.headersFrozen = true) :
    streamStep s (StreamEvent.setHeader k v) = s := by
  simp [streamStep, h]

/-- After the freeze, one more event changes neither the headers nor the
frozen flag. -/
theorem streamStep_preserves (s : StreamState) (e : StreamEvent)
    (h : s.headersFrozen = true) :
    (streamStep s e).responseHeader = s.responseHeader ∧
      (streamStep s e).headersFrozen = true := by
  cases e with
  | setHeader k v => simp [streamStep, h]
  | yieldMessage m => simp [streamStep]
  | failCall => simp [streamStep]

/-- After the freeze, the headers stay fixed over any trace and the frozen
flag never resets. -/
theorem runStream_frozen (tr : List StreamEvent) (s : StreamState)
    (h : s.headersFrozen = true) :
    (runStream s tr).responseHeader = s.responseHeader ∧
      (runStream s tr).headersFrozen = true := by
  induction tr generalizing s with
  | nil => exact ⟨rfl, h⟩
  | cons e rest ih =>
      have hp := streamStep_preserves s e h
      have hr := ih (streamStep s e) hp.2
      exact ⟨hr.1.trans hp.1, hr.2⟩

/-- Running a response over an appended trace runs the two parts in
order. -/
theorem runStream_append (s : StreamState) (t1 t2 : List StreamEvent) :
    runStream s (t1 ++ t2) = runStream (runStream s t1) t2 := by
  simp [runStream]

/-- Any transition that produces an output message leaves the headers
frozen. -/
theorem streamStep_output_frozen (s : StreamState) (e : StreamEvent)
    (h : (streamStep s e).sent ≠ s.sent) :
    (streamStep s e).headersFrozen = true := by
  cases e with
  | setHeader k v =>
      exfalso
      apply h
      by_cases hf : s.headersFrozen = true <;> simp [streamStep, hf]
  | yieldMessage m => rfl
  | failCall => rfl

/-! ## The claims -/

/-- Claim C1: the dispatch mapping from call-shape tag to handler signature
is total and exhaustive — a descriptor tagged unary resolves to UnaryImpl,
server-streaming to ServerStreamingImpl, client-streaming to
ClientStreamingImpl and bidi-streaming to BiDiStreamingImpl; the four
signatures are pairwise distinct and distinct from the rejection value, so
each tag resolves to exactly one signature; and a descriptor whose tag
matches none of the four resolves to no valid signature (never). -/
theorem C1_dispatch_total_exhaustive :
    (∀ m : TypedMethodInfo, m.kind = MethodKind.unary.tag →
      MethodImpl m = UnaryImpl) ∧
    (∀ m : TypedMethodInfo, m.kind = MethodKind.serverStreaming.tag →
      MethodImpl m = ServerStreamingImpl) ∧
    (∀ m : TypedMethodInfo, m.kind = MethodKind.clientStreaming.tag →
      MethodImpl m = ClientStreamingImpl) ∧
    (∀ m : TypedMethodInfo, m.kind = MethodKind.biDiStreaming.tag →
      MethodImpl m = BiDiStreamingImpl) ∧
    List.Pairwise (fun a b => a ≠ b)
      [UnaryImpl, ServerStreamingImpl, ClientStreamingImpl, BiDiStreamingImpl] ∧
    (∀ s ∈ [UnaryImpl, ServerStreamingImpl, ClientStreamingImpl,
      BiDiStreamingImpl], s ≠ Ty.never) ∧
    (∀ m : TypedMethodInfo, (∀ k : MethodKind, m.kind ≠ k.tag) →
      MethodImpl m = Ty.never) := by
  refine ⟨?_, ?_, ?_, ?_, ?_, ?_, ?_⟩
  · intro m h; simp [MethodImpl, h, MethodKind.tag]
  · intro m h; simp [MethodImpl, h, MethodKind.tag]
  · intro m h; simp [MethodImpl, h, MethodKind.tag]
  · intro m h; simp [MethodImpl, h, MethodKind.tag]
  · decide
  · decide
  · intro m h
    have h0 := h MethodKind.unary
    have h1 := h MethodKind.serverStreaming
    have h2 := h MethodKind.clientStreaming
    have h3 := h MethodKind.biDiStreaming
    simp only [MethodKind.tag] at h0 h1 h2 h3
    simp [MethodImpl, MethodKind.tag, h0, h1, h2, h3]

/-- Witness for C1: a unary-tagged descriptor resolves to UnaryImpl and a
descriptor with the out-of-range tag 7 is rejected. -/
theorem C1_dispatch_witness :
    descriptorUnary.kind = MethodKind.unary.tag ∧
    (∀ k : MethodKind, descriptorBogus.kind ≠ k.tag) ∧
    MethodImpl descriptorUnary = UnaryImpl ∧
    MethodImpl descriptorBogus = Ty.never :=
  ⟨by decide, by decide,
    C1_dispatch_total_exhaustive.1 descriptorUnary (by decide),
    C1_dispatch_total_exhaustive.2.2.2.2.2.2 descriptorBogus (by decide)⟩

/-- Claim C2: a unary handler takes exactly one input message plus the call
context and produces exactly one output message, either as a synchronous
value or as a value produced asynchronously, and the output may be a
partial message that the runtime later completes with the declared
defaults. -/
theorem C2_unary_signature (sc : Schema) (f : UnaryHandler) (request : Msg)
    (c : HandlerContext) (p : PMsg) (k d : String)
    (hnd : (fieldNames sc).Nodup) (hmem : (k, d) ∈ sc)
    (hunset : lookupField k p = none) :
    UnaryHandler = Interp UnaryImpl ∧
    paramsOf UnaryImpl = [Ty.msgI, Ty.handlerCtx] ∧
    ((∃ pr, f request c = Sum.inl pr) ∨ (∃ v, f request c = Sum.inr v)) ∧
    ((∃ e, runUnary sc f request c = Except.error e) ∨
      (∃! m, runUnary sc f request c = Except.ok m)) ∧
    (∀ v : Msg ⊕ PMsg,
      runUnary sc (fun _ _ => Sum.inr v) request c = Except.ok (finalize sc v)) ∧
    (∀ pr : Promise (Msg ⊕ PMsg),
      runUnary sc (fun _ _ => Sum.inl pr) request c = pr.map (finalize sc)) ∧
    fieldNames (completeMessage sc p) = fieldNames sc ∧
    lookupField k (completeMessage sc p) = some d := by
  refine ⟨rfl, rfl, ?_, except_single _, fun v => rfl, fun pr => rfl,
    fieldNames_completeMessage sc p, ?_⟩
  · cases hfc : f request c with
    | inl pr => exact Or.inl ⟨pr, rfl⟩
    | inr v => exact Or.inr ⟨v, rfl⟩
  · have hl := lookupField_completeMessage sc p k d hnd hmem
    rw [hunset] at hl
    simpa using hl

/-- Witness for C2: on the sample schema, the sample handler returns the
partial message synchronously and the runtime completes the unset id field
with its declared default. -/
theorem C2_unary_witness :
    (fieldNames sampleSchema).Nodup ∧
    ("id", "0") ∈ sampleSchema ∧
    lookupField "id" samplePart = none ∧
    lookupField "id" (completeMessage sampleSchema samplePart) = some "0" :=
  ⟨by decide, by decide, by rfl,
    (C2_unary_signature sampleSchema sampleUnaryHandler [] sampleCtx
      samplePart "id" "0" (by decide) (by decide) (by rfl)).2.2.2.2.2.2.2⟩

/-- Claim C3: a client-streaming handler takes the lazy finite input
sequence plus the call context and produces exactly one awaited output
message (possibly partial, completed by the runtime), including when the
input sequence yields zero messages. -/
theorem C3_client_streaming (sc : Schema) (f : ClientStreamingHandler)
    (c : HandlerContext) :
    ClientStreamingHandler = Interp ClientStreamingImpl ∧
    paramsOf ClientStreamingImpl = [Ty.asyncIterable Ty.msgI, Ty.handlerCtx] ∧
    retOf ClientStreamingImpl = Ty.promise outputTy ∧
    (∀ requests : List Msg,
      (∃ e, runClientStreaming sc f requests c = Except.error e) ∨
      (∃! m, runClientStreaming sc f requests c = Except.ok m)) ∧
    ((∃ e, runClientStreaming sc f [] c = Except.error e) ∨
      (∃! m, runClientStreaming sc f [] c = Except.ok m)) ∧
    (∀ p : PMsg,
      runClientStreaming sc (fun _ _ => Except.ok (Sum.inr p)) [] c =
        Except.ok (completeMessage sc p)) :=
  ⟨rfl, rfl, rfl, fun _ => except_single _, except_single _, fun _ => rfl⟩

/-- Claim C4: a server-streaming handler takes one input message plus the
context and returns a finite sequence of output messages which may be
empty, and a bidi-streaming handler takes a finite sequence of input
messages plus the context and returns a finite sequence of output
messages. -/
theorem C4_streaming_shapes (sc : Schema) (g : ServerStreamingHandler)
    (h : BiDiStreamingHandler) (request : Msg) (requests : List Msg)
    (c : HandlerContext) :
    ServerStreamingHandler = Interp ServerStreamingImpl ∧
    BiDiStreamingHandler = Interp BiDiStreamingImpl ∧
    paramsOf ServerStreamingImpl = [Ty.msgI, Ty.handlerCtx] ∧
    streamElem (retOf ServerStreamingImpl) = some outputTy ∧
    paramsOf BiDiStreamingImpl = [Ty.asyncIterable Ty.msgI, Ty.handlerCtx] ∧
    streamElem (retOf BiDiStreamingImpl) = some outputTy ∧
    (runServerStreaming sc g request c).length = (g request c).length ∧
    (runBiDiStreaming sc h requests c).length = (h requests c).length ∧
    runServerStreaming sc (fun _ _ => []) request c = [] ∧
    runBiDiStreaming sc (fun _ _ => []) [] c = [] := by
  refine ⟨rfl, rfl, rfl, rfl, rfl, rfl, ?_, ?_, rfl, rfl⟩
  · simp [runServerStreaming]
  · simp [runBiDiStreaming]

/-- Claim C5: the timeout query returns none when no deadline is configured
and otherwise a non-negative remaining-milliseconds value recomputed from
the original deadline and the current clock at every query, so a later
query yields no more remaining time than an earlier one, and a query at or
after the deadline yields zero and never becomes positive at a later
query. -/
theorem C5_timeout_query (ctx : HandlerContext) (d now now2 : Nat)
    (hd : ctx.deadline = some d) (hle : now ≤ now2) :
    (∀ c2 : HandlerContext, c2.deadline = none → c2.timeoutMs now = none) ∧
    (∃ r : Int, ctx.timeoutMs now = some r ∧ 0 ≤ r ∧
      ∀ r2 : Int, ctx.timeoutMs now2 = some r2 → r2 ≤ r) ∧
    (d ≤ now → ctx.timeoutMs now = some 0) ∧
    (d ≤ now → ctx.timeoutMs now2 = some 0) := by
  have hq : ∀ n : Nat, ctx.timeoutMs n = some (max ((d : Int) - (n : Int)) 0) := by
    intro n
    unfold HandlerContext.timeoutMs
    rw [hd]
  refine ⟨?_, ?_, ?_, ?_⟩
  · intro c2 h2
    unfold HandlerContext.timeoutMs
    rw [h2]
  · refine ⟨max ((d : Int) - now) 0, hq now, le_max_right _ _, ?_⟩
    intro r2 h2
    rw [hq now2] at h2
    injection h2 with h3
    subst h3
    exact max_le_max (sub_le_sub_left (by exact_mod_cast hle) _) le_rfl
  · intro hexp
    have hle0 : (d : Int) - now ≤ 0 := sub_nonpos.mpr (by exact_mod_cast hexp)
    rw [hq now, max_eq_right hle0]
  · intro hexp
    have hexp2 : d ≤ now2 := le_trans hexp hle
    have hle0 : (d : Int) - now2 ≤ 0 := sub_nonpos.mpr (by exact_mod_cast hexp2)
    rw [hq now2, max_eq_right hle0]

/-- Witness for C5: the sample context has its deadline at 100 ms, and
querying at time 50 yields a non-negative remaining time bounding any
query at time 120. -/
theorem C5_timeout_witness :
    sampleCtx.deadline = some 100 ∧ 50 ≤ 120 ∧
    (∃ r : Int, sampleCtx.timeoutMs 50 = some r ∧ 0 ≤ r ∧
      ∀ r2 : Int, sampleCtx.timeoutMs 120 = some r2 → r2 ≤ r) :=
  ⟨by rfl, by decide,
    (C5_timeout_query sampleCtx 100 50 120 (by rfl) (by decide)).2.1⟩

/-- Claim C6: the cancellation signal transitions from active to cancelled
at most once, is triggered only by client disconnect or deadline expiry and
never by the handler itself, remains cancelled for the rest of its lifetime
once fired, and deadline expiry and client cancellation act on this single
shared signal. -/
theorem C6_cancellation_signal (evs : List CancelEvent) (b : Bool)
    (hh : ∀ e ∈ evs, e = CancelEvent.handlerStep) :
    (∀ tr : List CancelEvent, runCancel true tr = true) ∧
    (∀ s : Bool, ∀ tr : List CancelEvent, firingCount s tr ≤ 1) ∧
    runCancel false evs = false ∧
    (∀ s : Bool, cancelStep s CancelEvent.clientDisconnect =
      cancelStep s CancelEvent.deadlineExpiry) ∧
    cancelStep b CancelEvent.handlerStep = b :=
  ⟨runCancel_true, fun s tr => firingCount_le_one tr s,
    runCancel_handler_only evs hh, fun _ => rfl, rfl⟩

/-- Witness for C6: a trace of two handler steps leaves the signal
active. -/
theorem C6_cancellation_witness :
    (∀ e ∈ ([CancelEvent.handlerStep, CancelEvent.handlerStep] :
      List CancelEvent), e = CancelEvent.handlerStep) ∧
    runCancel false [CancelEvent.handlerStep, CancelEvent.handlerStep] = false :=
  ⟨by decide,
    (C6_cancellation_signal
      [CancelEvent.handlerStep, CancelEvent.handlerStep] true
      (by decide)).2.2.1⟩

/-- Claim C7: the protocol name of every constructed call context is drawn
from the fixed three-element set of wire protocol names and is never any
string outside that set. -/
theorem C7_protocol_name (m : TypedMethodInfo) (svc : ServiceType)
    (p : ProtocolName) (rm : String) (rh : Headers) (dl : Option Nat)
    (s : String) (hs : s ∉ (["connect", "grpc", "grpc-web"] : List String)) :
    (mkHandlerContext m svc p rm rh dl).protocolName ∈
      (["connect", "grpc", "grpc-web"] : List String) ∧
    (∀ q : ProtocolName, q.wireName ∈
      (["connect", "grpc", "grpc-web"] : List String)) ∧
    (["connect", "grpc", "grpc-web"] : List String).Nodup ∧
    (["connect", "grpc", "grpc-web"] : List String).length = 3 ∧
    (mkHandlerContext m svc p rm rh dl).protocolName ≠ s := by
  have hmemAll : ∀ q : ProtocolName, q.wireName ∈
      (["connect", "grpc", "grpc-web"] : List String) := by
    intro q
    cases q <;> simp [ProtocolName.wireName]
  refine ⟨hmemAll p, hmemAll, by decide, rfl, ?_⟩
  intro heq
  have h2 : (mkHandlerContext m svc p rm rh dl).protocolName ∈
      (["connect", "grpc", "grpc-web"] : List String) := hmemAll p
  rw [heq] at h2
  exact hs h2

/-- Witness for C7: a context built by the gRPC-Web handler carries a
protocol name inside the fixed set, which the string http is outside
of. -/
theorem C7_protocol_witness :
    "http" ∉ (["connect", "grpc", "grpc-web"] : List String) ∧
    (mkHandlerContext descriptorUnary sampleService ProtocolName.grpcWeb
      "POST" [] none).protocolName ∈
      (["connect", "grpc", "grpc-web"] : List String) :=
  ⟨by decide,
    (C7_protocol_name descriptorUnary sampleService ProtocolName.grpcWeb
      "POST" [] none "http" (by decide)).1⟩

/-- Claim C8: for streaming-output shapes the outbound headers are
finalized before the first output message — any transition that produces
output leaves the headers frozen, a mutation after the freeze is ignored
and the headers never change over any later trace, and a call that fails
after zero output messages has still frozen its headers at the moment of
the attempted termination, producing no output. -/
theorem C8_header_freeze (s : StreamState) (tr : List StreamEvent)
    (k v : String) (m0 : Msg) (hfr : s.headersFrozen = true) :
    (∀ st : StreamState, ∀ e : StreamEvent,
      (streamStep st e).sent ≠ st.sent → (streamStep st e).headersFrozen = true) ∧
    (∀ st : StreamState,
      (streamStep st (StreamEvent.yieldMessage m0)).headersFrozen = true) ∧
    streamStep s (StreamEvent.setHeader k v) = s ∧
    (runStream s tr).responseHeader = s.responseHeader ∧
    (runStream s tr).headersFrozen = true ∧
    (∀ st : StreamState, ∀ tr2 : List StreamEvent,
      (runStream st (tr2 ++ [StreamEvent.failCall])).headersFrozen = true) ∧
    (∀ st : StreamState, (streamStep st StreamEvent.failCall).sent = st.sent) := by
  refine ⟨fun st e h => streamStep_output_frozen st e h, fun st => rfl,
    streamStep_frozen_setHeader s k v hfr, (runStream_frozen tr s hfr).1,
    (runStream_frozen tr s hfr).2, ?_, fun st => rfl⟩
  intro st tr2
  rw [runStream_append]
  rfl

/-- Witness for C8: the sample frozen response ignores a later header
mutation. -/
theorem C8_header_witness :
    sampleFrozen.headersFrozen = true ∧
    streamStep sampleFrozen (StreamEvent.setHeader "x" "y") = sampleFrozen :=
  ⟨by rfl,
    (C8_header_freeze sampleFrozen [] "x" "y" [] (by rfl)).2.2.1⟩

/-- Claim C9: among the four handler shapes only the unary signature admits
returning its single output message as a synchronous value; the
client-streaming signature, though it also produces exactly one output
message, returns only a promise, with no synchronous alternative. -/
theorem C9_sync_return_only_unary :
    admitsSyncValue (retOf UnaryImpl) = true ∧
    admitsSyncValue (retOf ClientStreamingImpl) = false ∧
    (unionMembers (retOf ClientStreamingImpl)).all isPromiseTy = true ∧
    ((unionMembers (retOf UnaryImpl)).all
      (fun a => (unionMembers (awaited a)).all isSingleMessageTy)) = true ∧
    ((unionMembers (awaited (retOf ClientStreamingImpl))).all
      isSingleMessageTy) = true := by
  decide

/-- Claim C10: for both streaming-output shapes every element of the
output sequence may itself be a partial message — the stream element type
is the union of the output message type with its partial form, and the
runtime completes partial elements with the declared defaults. -/
theorem C10_stream_elements_partMessage (sc : Schema) (request fullMsg : Msg)
    (requests : List Msg) (c : HandlerContext) (p : PMsg) :
    streamElem (retOf ServerStreamingImpl) =
      some (Ty.union Ty.msgO (Ty.partMessage Ty.msgO)) ∧
    streamElem (retOf BiDiStreamingImpl) =
      some (Ty.union Ty.msgO (Ty.partMessage Ty.msgO)) ∧
    Ty.partMessage Ty.msgO ∈
      unionMembers (Ty.union Ty.msgO (Ty.partMessage Ty.msgO)) ∧
    runServerStreaming sc (fun _ _ => [Sum.inr p, Sum.inl fullMsg]) request c =
      [completeMessage sc p, fullMsg] ∧
    runBiDiStreaming sc (fun _ _ => [Sum.inr p]) requests c =
      [completeMessage sc p] :=
  ⟨rfl, rfl, by decide, rfl, rfl⟩

end ConnectES
